import Mathlib

/-!
Shallow embedding of `src-tauri/transcribe_wav.py` (the VType transcription
worker) and proofs about its worker protocol engine.

Modelling conventions:
* Byte streams are `List Nat` with each element a byte value (< 256 for real
  inputs; theorems about numeric ranges carry that as a hypothesis).
* Python exceptions are values: a fallible step returns `Except`.  The worker
  loop's outcome distinguishes a normal `return 0` from an uncaught exception.
* `numpy` samples are modelled as rationals.  The source computes
  `np.frombuffer(pcm, dtype=np.int16).astype(np.float32) / 32768.0`; every
  `int16` value is exactly representable in `float32` (magnitude < 2^24) and
  division by the power of two 32768 is exact in `float32` (it only shifts the
  exponent, and all results are normal), so the `float32` computation agrees
  exactly with the rational one and `ℚ` is a faithful model of this line.
* The CPython `wave` module and `onnx_asr` are external dependencies of the
  repository.  `wave.open` is modelled by `waveOpen` (see its doc comment);
  the recognition model is an arbitrary function parameter.
-/

/-- Little-endian value of the first two bytes (Python `struct.unpack("<H", ...)`). -/
def decodeLE2 (b0 b1 : Nat) : Nat := b0 + 256 * b1

/-- Little-endian value of the first four bytes of a list
(Python `struct.unpack("<I", ...)` on a 4-byte buffer). -/
def decodeLE4 (l : List Nat) : Nat :=
  l.getD 0 0 + 256 * l.getD 1 0 + 65536 * l.getD 2 0 + 16777216 * l.getD 3 0

/-- Two little-endian bytes of a value (Python `struct.pack("<H", n)`). -/
def encodeLE2 (n : Nat) : List Nat := [n % 256, n / 256 % 256]

/-- Four little-endian bytes of a value (Python `struct.pack("<I", n)`). -/
def encodeLE4 (n : Nat) : List Nat :=
  [n % 256, n / 256 % 256, n / 65536 % 256, n / 16777216 % 256]

/-- UTF-8 encoding of a string, restricted to ASCII text (every piece of text
the worker emits — the sentinel line and the `"ERROR: "` responses built from
the modelled exception messages — is ASCII, where UTF-8 is one byte per
character). -/
def utf8Bytes (s : String) : List Nat := s.data.map Char.toNat

/-- Python `str.strip()` (no argument): drop leading and trailing whitespace.
Structural model over the character list, agreeing with CPython on the ASCII
whitespace that can occur here. -/
def pyStrip (s : String) : String :=
  ⟨((s.data.dropWhile Char.isWhitespace).reverse.dropWhile Char.isWhitespace).reverse⟩

/-- Signed 16-bit little-endian value of a byte pair
(one frame of `np.frombuffer(pcm, dtype=np.int16)`). -/
def toInt16 (b0 b1 : Nat) : Int :=
  if b0 + 256 * b1 < 32768 then (b0 + 256 * b1 : Int)
  else (b0 + 256 * b1 : Int) - 65536

/-- Normalisation of one sample: `.astype(np.float32) / 32768.0`, which is
exact in `float32` for `int16` inputs (see the module comment). -/
def toSample (i : Int) : ℚ := (i : ℚ) / 32768

/-- Python exceptions raised inside `decode_wav_bytes`:
`ValueError` (the spec's ValidationError, raised by the source's explicit
checks and by `np.frombuffer` on an odd-length buffer), `wave.Error` (the
spec's FormatError, raised by the `wave` module on unparseable containers)
and `EOFError` (raised by the `chunk` module on a truncated chunk header). -/
inductive PyErr where
  | valueError (msg : String)
  | waveError (msg : String)
  | eofError
deriving Repr, DecidableEq

/-- Python `str(exc)` for the modelled exceptions (`str` of an `EOFError`
raised with no argument is the empty string). -/
def errText : PyErr → String
  | .valueError msg => msg
  | .waveError msg => msg
  | .eofError => ""

/-- The constant `SAMPLE_RATE = 16000` from the source. -/
def SAMPLE_RATE : Nat := 16000

/-- Result of `wave.open` as consumed by `decode_wav_bytes`: the header
parameters and the bytes returned by `wf.readframes(wf.getnframes())`. -/
structure WavContainer where
  nchannels : Nat
  sampwidth : Nat
  framerate : Nat
  pcm : List Nat
deriving Repr, DecidableEq

/-- Handling of a `data` chunk during the chunk scan: an error if no `fmt `
chunk preceded it, otherwise the container, whose PCM bytes are the available
chunk bytes cut to `readframes(nframes)` with `nframes` the declared chunk
size divided by the frame size. -/
def dataChunkResult (fmtInfo : Option (Nat × Nat × Nat)) (avail : List Nat)
    (size : Nat) : Except PyErr WavContainer :=
  match fmtInfo with
  | none => .error (.waveError "data chunk before fmt chunk")
  | some (nch, sw, rate) =>
    .ok ⟨nch, sw, rate, avail.take (size / (nch * sw) * (nch * sw))⟩

/-- Chunk scan of the body of a RIFF/WAVE file (the loop in the CPython
`wave` module's `initfp`, an external dependency of the repository): walk the
chunk list, record the `fmt ` parameters (PCM format tag required, sample
width converted from bits to bytes), stop at the `data` chunk, whose byte
count rounded down to whole frames bounds `readframes`.  Chunk sizes are
padded to even offsets, as in the `chunk` module.  `fuel` only forces
termination; callers pass more fuel than the list length, and every
iteration consumes at least eight bytes. -/
def findChunksF (fmtInfo : Option (Nat × Nat × Nat)) :
    Nat → List Nat → Except PyErr WavContainer
  | 0, _ => .error (.waveError "fmt chunk and/or data chunk missing")
  | fuel + 1, s =>
    if s.length < 8 then .error (.waveError "fmt chunk and/or data chunk missing")
    else if s.take 4 = utf8Bytes "fmt " then
      if ((s.drop 8).take (decodeLE4 ((s.drop 4).take 4))).length < 16 then .error .eofError
      else if decodeLE2 ((s.drop 8).getD 0 0) ((s.drop 8).getD 1 0) ≠ 1 then
        .error (.waveError ("unknown format: " ++
          toString (decodeLE2 ((s.drop 8).getD 0 0) ((s.drop 8).getD 1 0))))
      else if decodeLE2 ((s.drop 8).getD 2 0) ((s.drop 8).getD 3 0) = 0 then
        .error (.waveError "bad # of channels")
      else if (decodeLE2 ((s.drop 8).getD 14 0) ((s.drop 8).getD 15 0) + 7) / 8 = 0 then
        .error (.waveError "bad sample width")
      else
        findChunksF (some (decodeLE2 ((s.drop 8).getD 2 0) ((s.drop 8).getD 3 0),
            (decodeLE2 ((s.drop 8).getD 14 0) ((s.drop 8).getD 15 0) + 7) / 8,
            decodeLE4 ((s.drop 12).take 4)))
          fuel
          ((s.drop 8).drop (decodeLE4 ((s.drop 4).take 4) +
            decodeLE4 ((s.drop 4).take 4) % 2))
    else if s.take 4 = utf8Bytes "data" then
      dataChunkResult fmtInfo ((s.drop 8).take (decodeLE4 ((s.drop 4).take 4)))
        (decodeLE4 ((s.drop 4).take 4))
    else
      findChunksF fmtInfo fuel
        ((s.drop 8).drop (decodeLE4 ((s.drop 4).take 4) +
          decodeLE4 ((s.drop 4).take 4) % 2))

/-- Model of `wave.open(BytesIO(b), "rb")` followed by reading the header
parameters and all frames (the CPython `wave` module, an external dependency
of the repository): check the `RIFF` id and the `WAVE` form type, then scan
the chunks.  A file too short for the outer chunk header raises `EOFError`. -/
def waveOpen (bytes : List Nat) : Except PyErr WavContainer :=
  if bytes.length < 8 then .error .eofError
  else if bytes.take 4 ≠ utf8Bytes "RIFF" then
    .error (.waveError "file does not start with RIFF id")
  else if (bytes.drop 8).take 4 ≠ utf8Bytes "WAVE" then
    .error (.waveError "not a WAVE file")
  else findChunksF none (bytes.length + 1) (bytes.drop 12)

/-- Conversion of the PCM byte stream to samples, one frame (two bytes,
little-endian) at a time: `np.frombuffer(pcm, dtype=np.int16)` followed by
`.astype(np.float32) / 32768.0`.  A trailing odd byte never reaches this
function (`decode_wav_bytes` models `np.frombuffer`'s size check first). -/
def pcmToSamples : List Nat → List ℚ
  | [] => []
  | [_] => []
  | b0 :: b1 :: rest => toSample (toInt16 b0 b1) :: pcmToSamples rest

/-- The source's `decode_wav_bytes`: open the container, validate
channels/width/rate, read the frames and normalise them.  The validation
messages are the source's literals; `np.frombuffer` raises `ValueError` on a
buffer that is not a multiple of the element size. -/
def decode_wav_bytes (wavBytes : List Nat) : Except PyErr (List ℚ) :=
  match waveOpen wavBytes with
  | .error e => .error e
  | .ok wf =>
    if wf.nchannels ≠ 1 ∨ wf.sampwidth ≠ 2 then
      .error (.valueError "Input WAV must be mono 16-bit PCM")
    else if wf.framerate ≠ SAMPLE_RATE then
      .error (.valueError ("Input WAV must be " ++ toString SAMPLE_RATE ++ "Hz"))
    else if wf.pcm.length % 2 ≠ 0 then
      .error (.valueError "buffer size must be a multiple of element size")
    else .ok (pcmToSamples wf.pcm)

/-- Outcome of the source's `load_asr_model`, instrumented with the number of
`onnx_asr.load_model` attempts made and whether the model path was deleted. -/
structure LoadOutcome (α : Type) where
  result : Except String α
  attempts : Nat
  deleted : Bool

/-- The source's `load_asr_model`, with the external `onnx_asr.load_model`
attempts as parameters (`attempt1` is the first call's outcome, `attempt2`
the outcome a second call would have) together with whether the model path
exists when the first attempt fails: try once; on failure, if the path
exists, delete it and retry exactly once, the retry's error propagating;
if the path does not exist, re-raise the original error. -/
def load_asr_model {α : Type} (attempt1 attempt2 : Except String α)
    (pathExists : Bool) : LoadOutcome α :=
  match attempt1 with
  | .ok m => ⟨.ok m, 1, false⟩
  | .error e => if pathExists then ⟨attempt2, 2, true⟩ else ⟨.error e, 1, false⟩

/-- Shape of the value returned by the external model's `recognize` call:
a single string or a list of strings (the worker joins a list with single
spaces). -/
inductive RecResult where
  | single (s : String)
  | segments (l : List String)

/-- Text the worker extracts from a recognition result:
`" ".join(...)` for a list, then `str(result).strip()`. -/
def recResultText : RecResult → String
  | .single s => pyStrip s
  | .segments l => pyStrip (String.intercalate " " l)

/-- Frame write: the 4-byte little-endian length followed by the payload
(`out.write(struct.pack("<I", len(b)))` then `out.write(b)`). -/
def write_frame (payload : List Nat) : List Nat := encodeLE4 payload.length ++ payload

/-- Frame read (the spec's `read_frame` codec primitive, inlined in the
source's loop): `none` is `EndOfStream` (short header or short payload);
otherwise the payload and the unconsumed remainder of the stream. -/
def read_frame (s : List Nat) : Option (List Nat × List Nat) :=
  if (s.take 4).length < 4 then none
  else if ((s.drop 4).take (decodeLE4 (s.take 4))).length < decodeLE4 (s.take 4) then none
  else some ((s.drop 4).take (decodeLE4 (s.take 4)), (s.drop 4).drop (decodeLE4 (s.take 4)))

/-- Result of the worker process: a normal `return code`, or an uncaught
Python exception propagating out of `run_worker` (the interpreter then
terminates with a traceback and a non-zero status). -/
inductive PyResult where
  | exit (code : Nat)
  | raised (msg : String)
deriving Repr, DecidableEq

/-- Observable behaviour of a worker run: the bytes written to standard
output, the sample buffers passed to the model's `recognize` call (in order),
and how the run ended. -/
structure WorkerOut where
  out : List Nat
  calls : List (List ℚ)
  result : PyResult

/-- Prepend output bytes and recognize-call records to a later outcome. -/
def consOut (bs : List Nat) (cs : List (List ℚ)) (w : WorkerOut) : WorkerOut :=
  ⟨bs ++ w.out, cs ++ w.calls, w.result⟩

/-- Continuation of one request after a successful decode, given the outcome
of `model.recognize(audio, sample_rate=SAMPLE_RATE)`: on success the joined
and trimmed text is the response; on an exception the `f"ERROR: {exc}"` text
is.  The second component records the recognize call that was made. -/
def recResponse (res : Except String RecResult) (audio : List ℚ) :
    List Nat × List (List ℚ) :=
  match res with
  | .error msg => (write_frame (utf8Bytes ("ERROR: " ++ msg)), [audio])
  | .ok r => (write_frame (utf8Bytes (recResultText r)), [audio])

/-- Body of the source's `try`/`except` around one non-empty request:
decode, recognize, trim and encode on success; on any exception format
`f"ERROR: {exc}"` and encode that.  Returns the response frame bytes and
the recognize calls made (zero or one). -/
def processRequest (recognize : List ℚ → Except String RecResult)
    (payload : List Nat) : List Nat × List (List ℚ) :=
  match decode_wav_bytes payload with
  | .error e => (write_frame (utf8Bytes ("ERROR: " ++ errText e)), [])
  | .ok audio => recResponse (recognize audio) audio

/-- The source's `while True` loop, structurally recursive on fuel (each
continuing iteration consumes at least the four header bytes, so any fuel
above the stream length is never exhausted).  Per iteration: `buf.read(4)`;
an empty read breaks with `return 0`; a 1–3 byte read reaches
`struct.unpack("<I", header)`, which raises `struct.error`; a zero length
answers with a zero-length frame; a short payload read breaks with
`return 0`; otherwise the request is processed and the loop continues. -/
def loopFuel (recognize : List ℚ → Except String RecResult) :
    Nat → List Nat → WorkerOut
  | 0, _ => ⟨[], [], .exit 0⟩
  | fuel + 1, input =>
    if (input.take 4).isEmpty then ⟨[], [], .exit 0⟩
    else if (input.take 4).length < 4 then
      ⟨[], [], .raised "unpack requires a buffer of 4 bytes"⟩
    else if decodeLE4 (input.take 4) = 0 then
      consOut (encodeLE4 0) [] (loopFuel recognize fuel (input.drop 4))
    else if ((input.drop 4).take (decodeLE4 (input.take 4))).length <
        decodeLE4 (input.take 4) then
      ⟨[], [], .exit 0⟩
    else
      consOut (processRequest recognize ((input.drop 4).take (decodeLE4 (input.take 4)))).1
        (processRequest recognize ((input.drop 4).take (decodeLE4 (input.take 4)))).2
        (loopFuel recognize fuel ((input.drop 4).drop (decodeLE4 (input.take 4))))

/-- The source's worker loop on a given standard-input byte stream. -/
def run_worker_loop (recognize : List ℚ → Except String RecResult)
    (input : List Nat) : WorkerOut :=
  loopFuel recognize (input.length + 1) input

/-- The source's `run_worker`: load the model (`load` is the loader outcome;
a loader exception propagates before anything is written), then write the
readiness line `"ready\n"` via `sys.stdout` — the text layer over the very
same standard-output stream that `sys.stdout.buffer` then carries the binary
frames on — and run the loop. -/
def run_worker (load : Except String (List ℚ → Except String RecResult))
    (input : List Nat) : WorkerOut :=
  match load with
  | .error e => ⟨[], [], .raised e⟩
  | .ok recognize => consOut (utf8Bytes "ready\n") [] (run_worker_loop recognize input)

/-- A recognition model that always succeeds with the empty string (used to
run the worker on concrete inputs). -/
def recognizeOk : List ℚ → Except String RecResult := fun _ => .ok (.single "")

/-- A recognition model whose (successful) transcription text itself starts
with the characters `"ERROR: "`. -/
def recognizeERR : List ℚ → Except String RecResult :=
  fun _ => .ok (.single "ERROR: fake")

/-- A canonical RIFF/WAVE container: `RIFF` header, a 16-byte PCM `fmt `
chunk with the given channel count, sample width (bytes) and rate, then a
`data` chunk holding `pcm`. -/
def mkWav (nch sw rate : Nat) (pcm : List Nat) : List Nat :=
  utf8Bytes "RIFF" ++ encodeLE4 (36 + pcm.length) ++ utf8Bytes "WAVE" ++
  utf8Bytes "fmt " ++ encodeLE4 16 ++ encodeLE2 1 ++ encodeLE2 nch ++
  encodeLE4 rate ++ encodeLE4 (rate * nch * sw) ++ encodeLE2 (nch * sw) ++
  encodeLE2 (sw * 8) ++
  utf8Bytes "data" ++ encodeLE4 pcm.length ++ pcm

/-- A valid mono 16-bit 16000 Hz container holding the given PCM bytes. -/
def testWav (pcm : List Nat) : List Nat := mkWav 1 2 16000 pcm

/-- Bytes that are not parseable as a WAV container. -/
def nonWav : List Nat := utf8Bytes "NOTAWAVFILE!"

/-! Helper lemmas. -/

theorem decodeLE4_encodeLE4 (n : Nat) (h : n < 4294967296) :
    decodeLE4 (encodeLE4 n) = n := by
  simp only [decodeLE4, encodeLE4, List.getD_cons_zero, List.getD_cons_succ]
  omega

theorem toInt16_bounds {b0 b1 : Nat} (h0 : b0 < 256) (h1 : b1 < 256) :
    -32768 ≤ toInt16 b0 b1 ∧ toInt16 b0 b1 ≤ 32767 := by
  unfold toInt16
  split <;> omega

theorem toSample_bounds {i : Int} (h1 : -32768 ≤ i) (h2 : i ≤ 32767) :
    -1 ≤ toSample i ∧ toSample i ≤ 32767 / 32768 := by
  constructor
  · rw [toSample, le_div_iff₀ (by norm_num : (0 : ℚ) < 32768)]
    norm_num
    exact_mod_cast h1
  · rw [toSample, div_le_div_iff_of_pos_right (by norm_num : (0 : ℚ) < 32768)]
    exact_mod_cast h2

theorem pcmToSamples_length : ∀ l : List Nat, (pcmToSamples l).length = l.length / 2
  | [] => rfl
  | [_] => by simp [pcmToSamples]
  | _ :: _ :: rest => by
    simp only [pcmToSamples, List.length_cons, pcmToSamples_length rest]
    omega

theorem pcmToSamples_getD :
    ∀ (l : List Nat) (i : Nat), 2 * i + 1 < l.length →
      (pcmToSamples l).getD i 0 =
        toSample (toInt16 (l.getD (2 * i) 0) (l.getD (2 * i + 1) 0))
  | b0 :: b1 :: rest, 0, _ => by
    simp [pcmToSamples]
  | b0 :: b1 :: rest, i + 1, h => by
    have hr : 2 * i + 1 < rest.length := by
      simp only [List.length_cons] at h
      omega
    have h2 : 2 * (i + 1) = 2 * i + 1 + 1 := by ring
    rw [h2]
    simp only [pcmToSamples, List.getD_cons_succ]
    exact pcmToSamples_getD rest i hr
  | [], _, h => by simp at h
  | [_], i, h => by
    simp only [List.length_cons, List.length_nil] at h
    omega

theorem mem_pcmToSamples :
    ∀ {l : List Nat} {s : ℚ}, s ∈ pcmToSamples l →
      ∃ b0 b1, b0 ∈ l ∧ b1 ∈ l ∧ s = toSample (toInt16 b0 b1)
  | b0 :: b1 :: rest, s, h => by
    rcases List.mem_cons.mp h with rfl | h'
    · exact ⟨b0, b1, by simp, by simp, rfl⟩
    · obtain ⟨c0, c1, h0, h1, rfl⟩ := mem_pcmToSamples h'
      exact ⟨c0, c1, by simp [h0], by simp [h1], rfl⟩
  | [], s, h => absurd h (List.not_mem_nil s)
  | [_], s, h => absurd h (List.not_mem_nil s)

theorem dataChunkResult_pcm_subset {fi : Option (Nat × Nat × Nat)}
    {avail : List Nat} {size : Nat} {c : WavContainer}
    (h : dataChunkResult fi avail size = .ok c) : ∀ b ∈ c.pcm, b ∈ avail := by
  rcases fi with _ | ⟨nch, sw, rate⟩
  · simp [dataChunkResult] at h
  · obtain rfl : _ = c := by injection h
    intro b hb
    exact List.take_subset _ _ hb

theorem findChunksF_pcm_subset :
    ∀ (f : Nat) (fi : Option (Nat × Nat × Nat)) (s : List Nat) (c : WavContainer),
      findChunksF fi f s = .ok c → ∀ b ∈ c.pcm, b ∈ s := by
  intro f
  induction f with
  | zero =>
    intro fi s c h
    simp [findChunksF] at h
  | succ n ih =>
    intro fi s c h b hb
    rw [findChunksF] at h
    split_ifs at h with h1 h2 h3 h4 h5 h6 h7
    · -- fmt chunk: recurse on the remainder of the chunk list
      exact List.drop_subset _ _ (List.drop_subset _ _ (ih _ _ _ h b hb))
    · -- data chunk: the pcm bytes are a take of a take of a drop of s
      exact List.drop_subset _ _
        (List.take_subset _ _ (dataChunkResult_pcm_subset h b hb))
    · -- other chunk: skip and recurse
      exact List.drop_subset _ _ (List.drop_subset _ _ (ih _ _ _ h b hb))

theorem waveOpen_pcm_subset {bytes : List Nat} {c : WavContainer}
    (h : waveOpen bytes = .ok c) : ∀ b ∈ c.pcm, b ∈ bytes := by
  intro b hb
  rw [waveOpen] at h
  split_ifs at h with h1 h2 h3
  exact List.drop_subset _ _ (findChunksF_pcm_subset _ _ _ _ h b hb)

theorem recResponse_calls (res : Except String RecResult) (audio : List ℚ) :
    (recResponse res audio).2 = [audio] := by
  cases res <;> rfl

theorem processRequest_calls {r : List ℚ → Except String RecResult}
    {payload : List Nat} {a : List ℚ} (h : a ∈ (processRequest r payload).2) :
    decode_wav_bytes payload = .ok a := by
  rcases hd : decode_wav_bytes payload with e | audio
  · unfold processRequest at h
    rw [hd] at h
    simp at h
  · unfold processRequest at h
    rw [hd, recResponse_calls, List.mem_singleton] at h
    subst h
    rfl

theorem processRequest_error {r : List ℚ → Except String RecResult}
    {payload : List Nat} {msg : String}
    (h : (∃ e, decode_wav_bytes payload = .error e ∧ errText e = msg) ∨
         (∃ audio, decode_wav_bytes payload = .ok audio ∧ r audio = .error msg)) :
    (processRequest r payload).1 = write_frame (utf8Bytes ("ERROR: " ++ msg)) := by
  rcases h with ⟨e, he, rfl⟩ | ⟨a, ha, hr⟩
  · simp [processRequest, he]
  · simp [processRequest, ha, hr, recResponse]

theorem loopFuel_congr (r : List ℚ → Except String RecResult) :
    ∀ (f f' : Nat) (input : List Nat), input.length < f → input.length < f' →
      loopFuel r f input = loopFuel r f' input := by
  intro f
  induction f with
  | zero =>
    intro f' input h _
    exact absurd h (Nat.not_lt_zero _)
  | succ n ih =>
    intro f' input h h'
    obtain ⟨m, rfl⟩ : ∃ m, f' = m + 1 := ⟨f' - 1, by omega⟩
    rw [loopFuel, loopFuel]
    split_ifs with h1 h2 h3 h4
    · rfl
    · rfl
    · -- zero-length frame: the loop continues on the rest of the stream
      have hl : 4 ≤ input.length := by
        rw [List.length_take] at h2
        omega
      rw [ih m (input.drop 4) (by rw [List.length_drop]; omega)
        (by rw [List.length_drop]; omega)]
    · rfl
    · -- non-empty frame: the loop continues after the payload
      have hl : 4 ≤ input.length := by
        rw [List.length_take] at h2
        omega
      rw [ih m ((input.drop 4).drop (decodeLE4 (input.take 4)))
        (by rw [List.length_drop, List.length_drop]; omega)
        (by rw [List.length_drop, List.length_drop]; omega)]

theorem run_worker_loop_frame (r : List ℚ → Except String RecResult)
    (payload rest : List Nat) (hne : payload ≠ [])
    (hlt : payload.length < 4294967296) :
    run_worker_loop r (write_frame payload ++ rest) =
      consOut (processRequest r payload).1 (processRequest r payload).2
        (run_worker_loop r rest) := by
  have h4 : (encodeLE4 payload.length).length = 4 := rfl
  have hassoc : write_frame payload ++ rest =
      encodeLE4 payload.length ++ (payload ++ rest) := by
    simp [write_frame]
  rw [run_worker_loop, run_worker_loop, hassoc, loopFuel]
  rw [List.take_left' h4, List.drop_left' h4, decodeLE4_encodeLE4 _ hlt]
  rw [show List.take payload.length (payload ++ rest) = payload from
    List.take_left' rfl]
  rw [show List.drop payload.length (payload ++ rest) = rest from
    List.drop_left' rfl]
  rw [if_neg (by simp [encodeLE4] : ¬((encodeLE4 payload.length).isEmpty = true))]
  rw [if_neg (by rw [h4]; omega : ¬((encodeLE4 payload.length).length < 4))]
  rw [if_neg (fun hz => hne (List.length_eq_zero.mp hz))]
  rw [if_neg (by omega : ¬(payload.length < payload.length))]
  congr 1
  exact loopFuel_congr r _ _ rest
    (by simp [List.length_append, h4]; omega) (by omega)

theorem loopFuel_calls_sound (r : List ℚ → Except String RecResult) :
    ∀ (f : Nat) (input : List Nat) (a : List ℚ),
      a ∈ (loopFuel r f input).calls →
      ∃ p, p ≠ [] ∧ decode_wav_bytes p = .ok a := by
  intro f
  induction f with
  | zero =>
    intro input a h
    simp [loopFuel] at h
  | succ n ih =>
    intro input a h
    rw [loopFuel] at h
    split_ifs at h with h1 h2 h3 h4
    · simp at h
    · simp at h
    · simp only [consOut, List.nil_append] at h
      exact ih _ _ h
    · simp at h
    · simp only [consOut] at h
      rcases List.mem_append.mp h with hl | hr
      · refine ⟨(input.drop 4).take (decodeLE4 (input.take 4)), ?_, processRequest_calls hl⟩
        rw [← List.length_pos]
        omega
      · exact ih _ _ hr

theorem decode_ok_inv {bytes : List Nat} {samples : List ℚ}
    (h : decode_wav_bytes bytes = .ok samples) :
    ∃ c, waveOpen bytes = .ok c ∧ samples = pcmToSamples c.pcm := by
  rcases hw : waveOpen bytes with e | c
  · unfold decode_wav_bytes at h
    rw [hw] at h
    simp at h
  · unfold decode_wav_bytes at h
    rw [hw] at h
    simp at h
    split_ifs at h with h1 h2 h3
    injection h with h4
    exact ⟨c, rfl, h4.symm⟩

/-! Claim theorems. -/

/-- Claim C1, amended.  The claim says a header read of fewer than 4 bytes
(including 1, 2 or 3) makes the loop exit cleanly with status 0.  On the
code this holds only for an empty read: `if not header: break` fires solely
on zero bytes, and a 1–3 byte header reaches `struct.unpack("<I", header)`,
which raises `struct.error`, propagating out of `run_worker` (abnormal
termination, non-zero process status).  Either way no error frame is
written for the partial frame. -/
theorem claim_C1_amended (r : List ℚ → Except String RecResult)
    (input : List Nat) (h : input.length < 4) :
    run_worker_loop r input =
      if input.length = 0 then ⟨[], [], .exit 0⟩
      else ⟨[], [], .raised "unpack requires a buffer of 4 bytes"⟩ := by
  rw [run_worker_loop, loopFuel,
    List.take_of_length_le (by omega : input.length ≤ 4)]
  by_cases h0 : input = []
  · subst h0
    simp
  · rw [if_neg (fun hx => h0 (List.isEmpty_iff.mp hx)), if_pos h,
      if_neg (fun hz => h0 (List.length_eq_zero.mp hz))]

theorem claim_C1_witness :
    run_worker_loop recognizeOk [1, 2] =
      if ([1, 2] : List Nat).length = 0 then ⟨[], [], .exit 0⟩
      else ⟨[], [], .raised "unpack requires a buffer of 4 bytes"⟩ :=
  claim_C1_amended recognizeOk [1, 2] (by decide)

/-- Claim C1 is false as stated: on the three-byte stream `[1, 2, 3]` the
worker loop does not exit with success status 0 — `struct.unpack` raises on
the 3-byte header and the exception propagates. -/
theorem claim_C1_counterexample :
    (run_worker_loop recognizeOk [1, 2, 3]).result =
        .raised "unpack requires a buffer of 4 bytes" ∧
    (run_worker_loop recognizeOk [1, 2, 3]).result ≠ .exit 0 := by
  exact ⟨rfl, by decide⟩

/-- Claim C2: for every non-empty request frame whose decoding or
recognition raises an error with message `msg`, the worker writes the
response frame `"ERROR: " ++ msg` (UTF-8), does not terminate, and
processes the remainder of the stream exactly as it would have on its own
(so a subsequent valid request is still answered correctly). -/
theorem claim_C2 (r : List ℚ → Except String RecResult)
    (payload rest : List Nat) (msg : String) (hne : payload ≠ [])
    (hlt : payload.length < 4294967296)
    (herr : (∃ e, decode_wav_bytes payload = .error e ∧ errText e = msg) ∨
            (∃ audio, decode_wav_bytes payload = .ok audio ∧
              r audio = .error msg)) :
    (run_worker_loop r (write_frame payload ++ rest)).out =
        write_frame (utf8Bytes ("ERROR: " ++ msg)) ++
          (run_worker_loop r rest).out ∧
    (run_worker_loop r (write_frame payload ++ rest)).result =
        (run_worker_loop r rest).result := by
  rw [run_worker_loop_frame r payload rest hne hlt]
  constructor
  · show (processRequest r payload).1 ++ (run_worker_loop r rest).out = _
    rw [processRequest_error herr]
  · rfl

theorem claim_C2_witness :
    (run_worker_loop recognizeOk (write_frame nonWav ++ [])).out =
      write_frame (utf8Bytes ("ERROR: " ++ "file does not start with RIFF id")) ++
        (run_worker_loop recognizeOk []).out :=
  (claim_C2 recognizeOk nonWav [] "file does not start with RIFF id"
    (by decide) (by decide)
    (Or.inl ⟨.waveError "file does not start with RIFF id", rfl, rfl⟩)).1

/-- Claim C3: for every valid mono, 16-bit, 16000 Hz container, `decode`
succeeds; the sample count is the PCM payload byte length divided by 2;
sample `i` is exactly the `i`-th signed 16-bit frame divided by 32768
(so ordering is the temporal order of the waveform); and every sample lies
in [-1, 1]. -/
theorem claim_C3 (bytes : List Nat) (c : WavContainer)
    (hb : ∀ x ∈ bytes, x < 256) (hw : waveOpen bytes = .ok c)
    (hch : c.nchannels = 1) (hsw : c.sampwidth = 2) (hr : c.framerate = 16000)
    (hev : c.pcm.length % 2 = 0) :
    decode_wav_bytes bytes = .ok (pcmToSamples c.pcm) ∧
    (pcmToSamples c.pcm).length = c.pcm.length / 2 ∧
    (∀ i, i < (pcmToSamples c.pcm).length →
      (pcmToSamples c.pcm).getD i 0 =
        toSample (toInt16 (c.pcm.getD (2 * i) 0) (c.pcm.getD (2 * i + 1) 0))) ∧
    (∀ s ∈ pcmToSamples c.pcm, -1 ≤ s ∧ s ≤ 1) := by
  have hdec : decode_wav_bytes bytes = .ok (pcmToSamples c.pcm) := by
    simp [decode_wav_bytes, hw, hch, hsw, hr, SAMPLE_RATE, hev]
  refine ⟨hdec, pcmToSamples_length _, ?_, ?_⟩
  · intro i hi
    rw [pcmToSamples_length] at hi
    exact pcmToSamples_getD _ _ (by omega)
  · intro s hs
    obtain ⟨b0, b1, hb0, hb1, rfl⟩ := mem_pcmToSamples hs
    obtain ⟨hlo, hhi⟩ := toInt16_bounds (hb _ (waveOpen_pcm_subset hw _ hb0))
      (hb _ (waveOpen_pcm_subset hw _ hb1))
    obtain ⟨hl, hu⟩ := toSample_bounds hlo hhi
    exact ⟨hl, le_trans hu (by norm_num)⟩

theorem claim_C3_witness :
    decode_wav_bytes (testWav [0, 128, 255, 127]) =
        .ok (pcmToSamples [0, 128, 255, 127]) ∧
    (pcmToSamples [0, 128, 255, 127]).length =
        ([0, 128, 255, 127] : List Nat).length / 2 ∧
    (∀ i, i < (pcmToSamples ([0, 128, 255, 127] : List Nat)).length →
      (pcmToSamples [0, 128, 255, 127]).getD i 0 =
        toSample (toInt16 (([0, 128, 255, 127] : List Nat).getD (2 * i) 0)
          (([0, 128, 255, 127] : List Nat).getD (2 * i + 1) 0))) ∧
    (∀ s ∈ pcmToSamples ([0, 128, 255, 127] : List Nat), -1 ≤ s ∧ s ≤ 1) :=
  claim_C3 (testWav [0, 128, 255, 127]) ⟨1, 2, 16000, [0, 128, 255, 127]⟩
    (by decide) rfl rfl rfl rfl (by decide)

/-- Claim C4: the loader makes a first load attempt; on failure, if the
path exists it deletes the path and performs exactly one retry whose
outcome (success or error) is the loader's outcome; if the path does not
exist the original error propagates; at most two attempts ever occur. -/
theorem claim_C4 {α : Type} (a1 a2 : Except String α) (ex : Bool) :
    (load_asr_model a1 a2 ex).attempts ≤ 2 ∧
    (∀ m, a1 = .ok m → load_asr_model a1 a2 ex = ⟨.ok m, 1, false⟩) ∧
    (∀ e, a1 = .error e → ex = true →
      load_asr_model a1 a2 ex = ⟨a2, 2, true⟩) ∧
    (∀ e, a1 = .error e → ex = false →
      load_asr_model a1 a2 ex = ⟨.error e, 1, false⟩) := by
  cases a1 <;> cases ex <;> simp [load_asr_model]

theorem claim_C4_witness :
    (load_asr_model (.error "load failed") (.error "retry failed")
        true : LoadOutcome Nat).attempts ≤ 2 ∧
    load_asr_model (.error "load failed")
        (.error "retry failed" : Except String Nat) true =
      ⟨.error "retry failed", 2, true⟩ :=
  ⟨(claim_C4 (.error "load failed") (.error "retry failed") true).1,
   (claim_C4 (.error "load failed") (.error "retry failed") true).2.2.1
     "load failed" rfl rfl⟩

/-- Claim C5: writing a frame and reading it back from the same stream
yields exactly the original payload (and leaves the rest of the stream),
for any payload whose length is representable in the 4-byte prefix. -/
theorem claim_C5 (p rest : List Nat) (h : p.length < 4294967296) :
    read_frame (write_frame p ++ rest) = some (p, rest) := by
  have h4 : (encodeLE4 p.length).length = 4 := rfl
  have hassoc : write_frame p ++ rest = encodeLE4 p.length ++ (p ++ rest) := by
    simp [write_frame]
  rw [hassoc, read_frame]
  rw [List.take_left' h4, List.drop_left' h4, decodeLE4_encodeLE4 _ h]
  rw [show List.take p.length (p ++ rest) = p from List.take_left' rfl]
  rw [show List.drop p.length (p ++ rest) = rest from List.drop_left' rfl]
  rw [if_neg (by rw [h4]; omega : ¬((encodeLE4 p.length).length < 4)),
    if_neg (by omega : ¬(p.length < p.length))]

theorem claim_C5_witness :
    read_frame (write_frame [42] ++ [9, 9]) = some ([42], [9, 9]) ∧
    read_frame (write_frame [] ++ []) = some ([], []) :=
  ⟨claim_C5 [42] [9, 9] (by decide), claim_C5 [] [] (by decide)⟩

/-- Claim C6: a parseable container with channel count ≠ 1 or sample width
≠ 2 bytes fails with the `ValueError` naming the mono/16-bit constraint; one
with the right channels and width but rate ≠ 16000 fails with the
`ValueError` naming the rate constraint; unparseable bytes fail with the
`wave` module's error.  In every case no sample buffer is returned. -/
theorem claim_C6 (bytes : List Nat) (c : WavContainer) (e : PyErr) :
    (waveOpen bytes = .ok c → c.nchannels ≠ 1 ∨ c.sampwidth ≠ 2 →
      decode_wav_bytes bytes =
        .error (.valueError "Input WAV must be mono 16-bit PCM")) ∧
    (waveOpen bytes = .ok c → c.nchannels = 1 → c.sampwidth = 2 →
      c.framerate ≠ 16000 →
      decode_wav_bytes bytes =
        .error (.valueError "Input WAV must be 16000Hz")) ∧
    (waveOpen bytes = .error e → decode_wav_bytes bytes = .error e) := by
  refine ⟨?_, ?_, ?_⟩
  · intro hw hbad
    simp [decode_wav_bytes, hw, hbad]
  · intro hw h1 h2 h3
    have hmsg : "Input WAV must be " ++ toString (16000 : Nat) ++ "Hz" =
        "Input WAV must be 16000Hz" := by decide
    simp [decode_wav_bytes, hw, h1, h2, h3, SAMPLE_RATE, hmsg]
  · intro hw
    simp [decode_wav_bytes, hw]

theorem claim_C6_witness :
    decode_wav_bytes (mkWav 2 2 16000 [0, 0, 0, 0]) =
        .error (.valueError "Input WAV must be mono 16-bit PCM") ∧
    decode_wav_bytes (mkWav 1 2 8000 [0, 0]) =
        .error (.valueError "Input WAV must be 16000Hz") ∧
    decode_wav_bytes nonWav =
        .error (.waveError "file does not start with RIFF id") :=
  ⟨(claim_C6 (mkWav 2 2 16000 [0, 0, 0, 0]) ⟨2, 2, 16000, [0, 0, 0, 0]⟩
      .eofError).1 rfl (by decide),
   (claim_C6 (mkWav 1 2 8000 [0, 0]) ⟨1, 2, 8000, [0, 0]⟩ .eofError).2.1
     rfl rfl rfl (by decide),
   (claim_C6 nonWav ⟨0, 0, 0, []⟩
      (.waveError "file does not start with RIFF id")).2.2 rfl⟩

/-- Claim C7 is false as stated: the non-empty request frame holding a
valid mono/16-bit/16000 Hz container with an empty data chunk decodes to
the empty sample buffer, and that empty buffer is passed to the model's
recognize call (`calls = [[]]`). -/
theorem claim_C7_counterexample :
    (run_worker_loop recognizeOk (write_frame (testWav []))).calls = [[]] ∧
    ¬ (∀ a ∈ (run_worker_loop recognizeOk (write_frame (testWav []))).calls,
        0 < a.length) := by
  refine ⟨rfl, fun hall => ?_⟩
  have h0 : ([] : List ℚ) ∈
      (run_worker_loop recognizeOk (write_frame (testWav []))).calls := by
    rw [show (run_worker_loop recognizeOk (write_frame (testWav []))).calls =
      [[]] from rfl]
    exact List.mem_singleton.mpr rfl
  simpa using hall [] h0

/-- Claim C7, amended.  The claim asserts every buffer reaching the model
has length > 0; the code never checks this, and a valid container with an
empty data chunk refutes it.  What holds: every buffer passed to the
model's recognize call is the successful decode of some non-empty request
payload (its length is the container's PCM byte count divided by 2, which
is zero exactly when the data chunk holds no complete frame). -/
theorem claim_C7_amended (r : List ℚ → Except String RecResult)
    (input : List Nat) :
    ∀ a ∈ (run_worker_loop r input).calls,
      ∃ p, p ≠ [] ∧ decode_wav_bytes p = .ok a := by
  intro a ha
  exact loopFuel_calls_sound r _ input a ha

theorem claim_C7_witness :
    ∃ p, p ≠ [] ∧ decode_wav_bytes p = .ok [toSample (toInt16 0 0)] :=
  claim_C7_amended recognizeOk (write_frame (testWav [0, 0]))
    [toSample (toInt16 0 0)]
    (by rw [show (run_worker_loop recognizeOk
          (write_frame (testWav [0, 0]))).calls =
        [[toSample (toInt16 0 0)]] from rfl]
        exact List.mem_singleton.mpr rfl)

/-- Claim C8, amended.  The claim says the readiness sentinel goes to a
side channel distinct from the binary frame channel.  In the code
`sys.stdout.write("ready\n")` and the frame writes to `sys.stdout.buffer`
target the same standard-output stream (the text layer over the same file
descriptor), so what holds is: after a successful load the worker writes
the single fixed newline-terminated sentinel line `"ready\n"` to standard
output ahead of any frame traffic, on the same stream the frames then
travel on. -/
theorem claim_C8_amended (r : List ℚ → Except String RecResult)
    (input : List Nat) :
    (run_worker (.ok r) input).out =
        utf8Bytes "ready\n" ++ (run_worker_loop r input).out ∧
    utf8Bytes "ready\n" = [114, 101, 97, 100, 121, 10] :=
  ⟨rfl, by decide⟩

/-- Claim C8 is false in its "distinct channel" part: on a ping request the
bytes the worker writes to standard output are the sentinel line followed
by the response frame — the sentinel shares the binary frame channel, so
the frame channel's stream is not frames alone. -/
theorem claim_C8_counterexample :
    (run_worker (.ok recognizeOk) (write_frame [])).out =
        utf8Bytes "ready\n" ++ write_frame [] ∧
    (run_worker (.ok recognizeOk) (write_frame [])).out ≠ write_frame [] := by
  exact ⟨by decide, by decide⟩

/-- Claim C9: with a model whose successful transcription text is
`"ERROR: fake"` (its trim is itself), the success response frame written
for a valid request is byte-identical to the error response frame carrying
message `"fake"`, and its payload begins with the bytes of `"ERROR: "` —
so the sentinel does not imply failure.  The last conjunct shows the
request decoded successfully (the success path was taken; `recognizeERR`
returns `.ok` on every input by definition). -/
theorem claim_C9 :
    (run_worker_loop recognizeERR (write_frame (testWav [0, 0]))).out =
        write_frame (utf8Bytes "ERROR: fake") ∧
    write_frame (utf8Bytes "ERROR: fake") =
        write_frame (utf8Bytes ("ERROR: " ++ "fake")) ∧
    (utf8Bytes "ERROR: fake").take 7 = utf8Bytes "ERROR: " ∧
    decode_wav_bytes (testWav [0, 0]) = .ok [toSample (toInt16 0 0)] :=
  ⟨by decide, by decide, by decide, rfl⟩

/-- Claim C10: every sample produced by `decode` lies in
[-1, 32767/32768] (hence is strictly below 1: the value +1.0 is never
produced), and the lower bound -1 is attained, namely by the input frame
`0x00 0x80` (the 16-bit sample -32768).  The division by 32768.0 is exact
in `float32` (see the module comment), so the rational bounds are the
`float32` bounds. -/
theorem claim_C10 :
    (∀ (bytes : List Nat) (samples : List ℚ), (∀ x ∈ bytes, x < 256) →
      decode_wav_bytes bytes = .ok samples →
      ∀ s ∈ samples, -1 ≤ s ∧ s ≤ 32767 / 32768 ∧ s < 1) ∧
    decode_wav_bytes (testWav [0, 128]) = .ok [-1] := by
  constructor
  · intro bytes samples hb hdec s hs
    obtain ⟨c, hw, rfl⟩ := decode_ok_inv hdec
    obtain ⟨b0, b1, hb0, hb1, rfl⟩ := mem_pcmToSamples hs
    obtain ⟨hlo, hhi⟩ := toInt16_bounds (hb _ (waveOpen_pcm_subset hw _ hb0))
      (hb _ (waveOpen_pcm_subset hw _ hb1))
    obtain ⟨hl, hu⟩ := toSample_bounds hlo hhi
    exact ⟨hl, hu, lt_of_le_of_lt hu (by norm_num)⟩
  · have h : decode_wav_bytes (testWav [0, 128]) = .ok [toSample (-32768)] := rfl
    have h2 : toSample (-32768) = -1 := by
      rw [toSample]
      norm_num
    rw [h, h2]

theorem claim_C10_witness :
    -1 ≤ (-1 : ℚ) ∧ (-1 : ℚ) ≤ 32767 / 32768 ∧ (-1 : ℚ) < 1 :=
  claim_C10.1 (testWav [0, 128]) [-1] (by decide) claim_C10.2 (-1)
    (List.mem_singleton.mpr rfl)
